import Mathlib

/-!
Shallow embedding of the repository-local logic of the NVIDIA DLI NER
notebooks (named-entity-recognition fine-tuning exercises).

The only repository-local computation is the inference post-processing:
gathering logits, taking an argmax over the class axis, restricting each
prediction row to the first-sub-token positions via the sub-token mask,
and re-attaching label strings to the words of each query, bracketing
non-outside labels.  Python strings are modelled as `List Char`
(`String` is used for the configuration constants, where only equality
and concatenation matter); fallible operations (numpy indexing errors,
`IndexError` on `pred[j]`) return `Option`.
-/

namespace NER

/-- Python's whitespace test, as used by `str.split()` and `str.strip()`
with no arguments. -/
def pySpace (c : Char) : Bool :=
  c = ' ' || c = '\t' || c = '\n' || c = '\r' || c = '\x0b' || c = '\x0c'

/-- Accumulator loop for `str.split()`: `acc` holds the current word,
reversed. -/
def splitAux : List Char → List Char → List (List Char)
  | [], acc => if acc.isEmpty then [] else [acc.reverse]
  | c :: cs, acc =>
    if pySpace c then
      if acc.isEmpty then splitAux cs [] else acc.reverse :: splitAux cs []
    else
      splitAux cs (c :: acc)

/-- Python `s.split()` with no arguments: split on runs of whitespace,
discarding empty pieces. -/
def pySplit (s : List Char) : List (List Char) :=
  splitAux s []

/-- Python `s.strip()` with no arguments: drop whitespace from both ends. -/
def pyStrip (s : List Char) : List Char :=
  ((s.dropWhile pySpace).reverse.dropWhile pySpace).reverse

/-- Notebook constant: the IOB outside label. -/
def NONE_LABEL : String := "O"

/-- Notebook constant: maximum sequence length. -/
def MAX_SEQ_LEN : Nat := 128

/-- Notebook constant: training batch size. -/
def BATCH_SIZE : Nat := 16

/-- Notebook constant: number of IOB classes. -/
def NUM_CLASSES : Nat := 3

/-- Notebook constant: dataset directory. -/
def DATA_DIR : String := "/dli/task/data/NCBI_ner-3/"

/-- Notebook constant: downloaded-checkpoints directory. -/
def CHECKPOINTS_PATH : String := "/ngc_checkpoints/checkpoints/"

/-- Notebook dictionary mapping model type to base model name. -/
def PRETRAINED_MODEL_NAME : String → Option String
  | "biobert" => some "bert-base-cased"
  | "biomegatron" => some "megatron-bert-uncased"
  | _ => none

/-- Notebook dictionary mapping model type to the casing convention. -/
def DO_LOWER_CASE : String → Option Bool
  | "biobert" => some false
  | "biomegatron" => some true
  | _ => none

/-- Notebook dictionary mapping model type to the log directory. -/
def WORK_DIR : String → Option String
  | "biobert" => some "/dli/task/data/logs-ner-biobert/"
  | "biomegatron" => some "/dli/task/data/logs-ner-biomegatron"
  | _ => none

/-- Notebook dictionary mapping model type to the NGC checkpoint path. -/
def NGC_CHECKPOINT : String → Option String
  | "biobert" => some (CHECKPOINTS_PATH ++ "biobert/BERT.pt")
  | "biomegatron" => some (CHECKPOINTS_PATH ++ "biomegatron/MegatronBERT.pt")
  | _ => none

/-- Notebook dictionary mapping model type to the NGC config path. -/
def NGC_CONFIG : String → Option String
  | "biobert" => some (CHECKPOINTS_PATH ++ "biobert/bert_config.json")
  | "biomegatron" => some (CHECKPOINTS_PATH ++ "biomegatron/config.json")
  | _ => none

/-- Notebook helper: `add_brackets(text, add=True)` returns
`'[' + text + ']'` when `add` holds, else `text`. -/
def add_brackets (text : List Char) (add : Bool := true) : List Char :=
  if add then '[' :: (text ++ [']']) else text

/-- C10: `add_brackets(text, add)` brackets `text` exactly when `add` is
true, and the default value of `add` is `True`. -/
theorem C10_add_brackets : ∀ (text : List Char),
    add_brackets text = '[' :: (text ++ [']']) ∧
    add_brackets text true = '[' :: (text ++ [']']) ∧
    add_brackets text false = text := by
  intro text
  exact ⟨rfl, rfl, rfl⟩

/-- C4: both model-type keys are mapped by all four configuration
dictionaries; `biobert` is cased (`bert-base-cased`, lower-casing off),
`biomegatron` is uncased (`megatron-bert-uncased`, lower-casing on), and
checkpoint and config paths are prefixed by `CHECKPOINTS_PATH`. -/
theorem C4_model_config :
    (PRETRAINED_MODEL_NAME "biobert").isSome = true ∧
    (DO_LOWER_CASE "biobert").isSome = true ∧
    (NGC_CHECKPOINT "biobert").isSome = true ∧
    (NGC_CONFIG "biobert").isSome = true ∧
    (PRETRAINED_MODEL_NAME "biomegatron").isSome = true ∧
    (DO_LOWER_CASE "biomegatron").isSome = true ∧
    (NGC_CHECKPOINT "biomegatron").isSome = true ∧
    (NGC_CONFIG "biomegatron").isSome = true ∧
    PRETRAINED_MODEL_NAME "biobert" = some "bert-base-cased" ∧
    DO_LOWER_CASE "biobert" = some false ∧
    PRETRAINED_MODEL_NAME "biomegatron" = some "megatron-bert-uncased" ∧
    DO_LOWER_CASE "biomegatron" = some true ∧
    (∃ s, NGC_CHECKPOINT "biobert" = some (CHECKPOINTS_PATH ++ s)) ∧
    (∃ s, NGC_CONFIG "biobert" = some (CHECKPOINTS_PATH ++ s)) ∧
    (∃ s, NGC_CHECKPOINT "biomegatron" = some (CHECKPOINTS_PATH ++ s)) ∧
    (∃ s, NGC_CONFIG "biomegatron" = some (CHECKPOINTS_PATH ++ s)) := by
  refine ⟨rfl, rfl, rfl, rfl, rfl, rfl, rfl, rfl, rfl, rfl, rfl, rfl,
    ⟨"biobert/BERT.pt", rfl⟩, ⟨"biobert/bert_config.json", rfl⟩,
    ⟨"biomegatron/MegatronBERT.pt", rfl⟩, ⟨"biomegatron/config.json", rfl⟩⟩

/-- Words of a query as the notebook computes them:
`words = query.strip().split()`. -/
def pyWords (query : List Char) : List (List Char) :=
  pySplit (pyStrip query)

/-- The notebook's labeling loop for one query, accumulating `output`:
for each word `w` (paired with position `j`), append `w`, then the
bracketed label `add_brackets(labels_dict[pred[j]])` when that label
differs from `NONE_LABEL`, then a space.  `none` models the `IndexError`
raised by `pred[j]` when `pred` has fewer entries than `words`.
`labels_dict` (the vocabulary read from `label_ids.csv`) is a parameter,
modelled as a total map on numpy label ids. -/
def queryOutput (labels_dict : Nat → List Char) :
    List (List Char) → List Nat → Option (List Char)
  | [], _ => some []
  | _ :: _, [] => none
  | w :: ws, p :: ps =>
    (queryOutput labels_dict ws ps).map (fun rest =>
      (w ++ (if labels_dict p ≠ NONE_LABEL.data then add_brackets (labels_dict p) else [])
         ++ [' ']) ++ rest)

/-- Word/tag view of the loop's output: each word of the query paired
with the tag annotation attached to it (`some` exactly for non-outside
labels).  This is the spec-side decomposition used to state the
formatting claims; `render` maps it back to the output string. -/
def labelWords (labels_dict : Nat → List Char) :
    List (List Char) → List Nat → Option (List (List Char × Option (List Char)))
  | [], _ => some []
  | _ :: _, [] => none
  | w :: ws, p :: ps =>
    (labelWords labels_dict ws ps).map (fun rest =>
      (w, if labels_dict p ≠ NONE_LABEL.data then some (labels_dict p) else none) :: rest)

/-- Rendering of one word/tag pair as it appears in `output`. -/
def renderWord : List Char × Option (List Char) → List Char
  | (w, some t) => w ++ add_brackets t ++ [' ']
  | (w, none) => w ++ [' ']

/-- Rendering of the full word/tag decomposition. -/
def render (lw : List (List Char × Option (List Char))) : List Char :=
  (lw.map renderWord).flatten

/-- The output string with the bracketed tag annotations stripped: each
word is rendered without its tag. -/
def eraseTags (lw : List (List Char × Option (List Char))) : List Char :=
  (lw.map (fun wt => wt.1 ++ [' '])).flatten

/-- The label string selected for a word: its tag when one is attached,
and the outside label `O` otherwise. -/
def selectedLabel (wt : List Char × Option (List Char)) : List Char :=
  wt.2.getD NONE_LABEL.data

/-- The printed labeled result for one query: `print(output.strip())`. -/
def labeledResult (labels_dict : Nat → List Char) (query : List Char)
    (pred : List Nat) : Option (List Char) :=
  (queryOutput labels_dict (pyWords query) pred).map pyStrip

/-- Notebook helper `concatenate`: `np.concatenate` along the first axis
(`.cpu()` is the identity in this model). -/
def concatenate (lists : List (List α)) : List α :=
  lists.flatten

/-- First-maximum scan underlying `np.argmax` on one row: `bi`/`bv` are
the index and value of the best element so far, `i` the next index. -/
def argmaxFrom (bi : Nat) (bv : Int) (i : Nat) : List Int → Nat
  | [] => bi
  | x :: xs => if bv < x then argmaxFrom i x (i + 1) xs else argmaxFrom bi bv (i + 1) xs

/-- `np.argmax` over one innermost row, returning the index of the first
maximal element; `none` models the numpy error on an empty axis. -/
def npArgmax : List Int → Option Nat
  | [] => none
  | x :: xs => some (argmaxFrom 0 x 1 xs)

/-- `np.argmax(·, axis=2)` applied to one matrix (one query's rows). -/
def npArgmaxRow : List (List Int) → Option (List Nat)
  | [] => some []
  | r :: rs =>
    match npArgmax r, npArgmaxRow rs with
    | some p, some ps => some (p :: ps)
    | _, _ => none

/-- `preds = np.argmax(logits, axis=2)` on the whole concatenated array. -/
def npArgmaxAxis2 : List (List (List Int)) → Option (List (List Nat))
  | [] => some []
  | row :: rows =>
    match npArgmaxRow row, npArgmaxAxis2 rows with
    | some ps, some rest => some (ps :: rest)
    | _, _ => none

/-- Numpy boolean-mask indexing `preds[i][subtokens_mask[i] > 0.5]`:
keep the entries of `row` at the positions where the mask value exceeds
one half; `none` models the numpy error on a length mismatch. -/
def maskSelect (row : List Nat) (mask : List ℚ) : Option (List Nat) :=
  if row.length = mask.length then
    some ((row.zip mask).filterMap (fun pm => if (0.5 : ℚ) < pm.2 then some pm.1 else none))
  else
    none

/-- Full per-query pipeline: restrict the prediction row by the mask,
then run the labeling loop and strip the result, each failure
propagating as `none`. -/
def queryResult (labels_dict : Nat → List Char) (query : List Char)
    (prow : List Nat) (mrow : List ℚ) : Option (List Char) :=
  (maskSelect prow mrow).bind (fun pred => labeledResult labels_dict query pred)

/-- Python `os.path.join` for two components: an absolute second
component wins; otherwise concatenate, inserting a slash when needed. -/
def osPathJoin (a b : String) : String :=
  if b.data.head? = some '/' then b
  else if a.data.getLast? = some '/' || a.data.isEmpty then a ++ b
  else a ++ "/" ++ b

/-- Modelled from the spec: NeMo's `BertTokenClassificationDataLayer` is
external to the repository; the spec and the notebook text record that
its optional `pad_label` parameter defaults to the outside label `"O"`.
Only the constructor arguments the notebook passes are modelled (the
tokenizer is omitted). -/
structure BertTokenClassificationDataLayer where
  text_file : String
  label_file : String
  max_seq_length : Nat
  shuffle : Bool
  batch_size : Nat
  use_cache : Bool
  pad_label : String := "O"

/-- Notebook constant: caching flag for the training data layer. -/
def USE_CACHE : Bool := true

/-- The training data layer exactly as the notebook constructs it:
`pad_label` is not passed, so it keeps its default. -/
def dl_train : BertTokenClassificationDataLayer :=
  { text_file := osPathJoin DATA_DIR "text_train.txt"
    label_file := osPathJoin DATA_DIR "labels_train.txt"
    max_seq_length := MAX_SEQ_LEN
    shuffle := true
    batch_size := BATCH_SIZE
    use_cache := USE_CACHE }

/-- Modelled from the spec: NeMo's `BertTokenClassificationInferDataLayer`
is external to the repository; it takes an in-memory query list (the
`queries=` parameter) and has no input-file parameter.  Only the
constructor arguments the notebook passes are modelled. -/
structure BertTokenClassificationInferDataLayer where
  queries : List String
  max_seq_length : Nat
  batch_size : Nat

/-- The inference data layer exactly as the notebook constructs it. -/
def dl_test (queries : List String) : BertTokenClassificationInferDataLayer :=
  { queries := queries
    max_seq_length := MAX_SEQ_LEN
    batch_size := 1 }

/-- Modelled from the spec: label-id padding inside the external data
layer — label sequences longer than `max_seq_length` are truncated, and
shorter ones are padded with the numeric id of `pad_label`. -/
def padLabelIds (labelId : String → Nat) (dl : BertTokenClassificationDataLayer)
    (ids : List Nat) : List Nat :=
  ids.take dl.max_seq_length ++
    List.replicate (dl.max_seq_length - (ids.take dl.max_seq_length).length)
      (labelId dl.pad_label)

/-- Python `' '.join(...)`: words joined by single spaces. -/
def pyJoinSpace : List (List Char) → List Char
  | [] => []
  | [w] => w
  | w :: ws => w ++ ' ' :: pyJoinSpace ws

theorem splitAux_append_nospace (w : List Char) (rest : List Char) (acc : List Char)
    (hw : ∀ c ∈ w, pySpace c = false) :
    splitAux (w ++ rest) acc = splitAux rest (w.reverse ++ acc) := by
  induction w generalizing acc with
  | nil => simp
  | cons c cs ih =>
    have hc : pySpace c = false := hw c (by simp)
    simp only [List.cons_append, splitAux, hc, Bool.false_eq_true, if_false, List.append_eq]
    rw [ih _ (fun d hd => hw d (by simp [hd]))]
    simp

theorem pySplit_word_space (w : List Char) (rest : List Char) (hne : w ≠ [])
    (hw : ∀ c ∈ w, pySpace c = false) :
    pySplit (w ++ ' ' :: rest) = w :: pySplit rest := by
  obtain ⟨d, ds, hrev⟩ : ∃ d ds, w.reverse = d :: ds := by
    cases hcase : w.reverse with
    | nil => exact absurd (List.reverse_eq_nil_iff.mp hcase) hne
    | cons d ds => exact ⟨d, ds, rfl⟩
  have hsp : pySpace ' ' = true := by decide
  unfold pySplit
  rw [splitAux_append_nospace w (' ' :: rest) [] hw, List.append_nil, hrev]
  simp only [splitAux, hsp, if_true, List.isEmpty_cons, Bool.false_eq_true, if_false]
  rw [← hrev, List.reverse_reverse]

theorem pySplit_flatten_words (ws : List (List Char))
    (h : ∀ w ∈ ws, w ≠ [] ∧ ∀ c ∈ w, pySpace c = false) :
    pySplit ((ws.map (fun w => w ++ [' '])).flatten) = ws := by
  induction ws with
  | nil => rfl
  | cons w ws ih =>
    obtain ⟨hne, hnospace⟩ := h w (by simp)
    simp only [List.map_cons, List.flatten_cons, List.append_assoc, List.singleton_append]
    rw [pySplit_word_space w _ hne hnospace, ih (fun v hv => h v (by simp [hv]))]

theorem splitAux_mem (s : List Char) : ∀ (acc : List Char),
    (∀ c ∈ acc, pySpace c = false) →
    ∀ w ∈ splitAux s acc, w ≠ [] ∧ ∀ c ∈ w, pySpace c = false := by
  induction s with
  | nil =>
    intro acc hacc w hw
    by_cases hemp : acc.isEmpty
    · simp [splitAux, hemp] at hw
    · simp only [splitAux, hemp, Bool.false_eq_true, if_false, List.mem_singleton] at hw
      subst hw
      refine ⟨fun hcon => ?_, fun c hc => hacc c (List.mem_reverse.mp hc)⟩
      rw [List.reverse_eq_nil_iff] at hcon
      simp [hcon] at hemp
  | cons c cs ih =>
    intro acc hacc w hw
    by_cases hc : pySpace c = true
    · simp only [splitAux, hc, if_true] at hw
      by_cases hemp : acc.isEmpty
      · simp only [hemp, if_true] at hw
        exact ih [] (by simp) w hw
      · simp only [hemp, Bool.false_eq_true, if_false, List.mem_cons] at hw
        rcases hw with hw | hw
        · subst hw
          refine ⟨fun hcon => ?_, fun d hd => hacc d (List.mem_reverse.mp hd)⟩
          rw [List.reverse_eq_nil_iff] at hcon
          simp [hcon] at hemp
        · exact ih [] (by simp) w hw
    · simp only [splitAux, hc, if_false] at hw
      refine ih (c :: acc) ?_ w hw
      intro d hd
      rcases List.mem_cons.mp hd with hd | hd
      · subst hd; simpa using hc
      · exact hacc d hd

theorem pyWords_mem (query : List Char) :
    ∀ w ∈ pyWords query, w ≠ [] ∧ ∀ c ∈ w, pySpace c = false :=
  splitAux_mem (pyStrip query) [] (by simp)

theorem labelWords_fst (ld : Nat → List Char) :
    ∀ (ws : List (List Char)) (ps : List Nat) (lw : List (List Char × Option (List Char))),
      labelWords ld ws ps = some lw → lw.map Prod.fst = ws := by
  intro ws
  induction ws with
  | nil =>
    intro ps lw h
    obtain rfl : ([] : List (List Char × Option (List Char))) = lw := by
      simpa [labelWords] using h
    rfl
  | cons w ws ih =>
    intro ps lw h
    cases ps with
    | nil => simp [labelWords] at h
    | cons p ps =>
      rw [labelWords, Option.map_eq_some'] at h
      obtain ⟨rest, hrest, rfl⟩ := h
      simp [ih ps rest hrest]

theorem queryOutput_eq_render (ld : Nat → List Char) :
    ∀ (ws : List (List Char)) (ps : List Nat),
      queryOutput ld ws ps = (labelWords ld ws ps).map render := by
  intro ws
  induction ws with
  | nil => intro ps; rfl
  | cons w ws ih =>
    intro ps
    cases ps with
    | nil => rfl
    | cons p ps =>
      rw [queryOutput, labelWords, ih ps, Option.map_map, Option.map_map]
      apply congrArg (fun f => Option.map f (labelWords ld ws ps))
      funext rest
      by_cases hl : ld p ≠ NONE_LABEL.data
      · simp [Function.comp, render, renderWord, hl]
      · simp [Function.comp, render, renderWord, hl]

theorem queryOutput_isSome_iff (ld : Nat → List Char) :
    ∀ (ws : List (List Char)) (ps : List Nat),
      (queryOutput ld ws ps).isSome = true ↔ ws.length ≤ ps.length := by
  intro ws
  induction ws with
  | nil => intro ps; simp [queryOutput]
  | cons w ws ih =>
    intro ps
    cases ps with
    | nil => simp [queryOutput]
    | cons p ps =>
      simp only [queryOutput, Option.isSome_map', List.length_cons, Nat.succ_le_succ_iff]
      exact ih ps

theorem labelWords_getElem (ld : Nat → List Char) :
    ∀ (ws : List (List Char)) (ps : List Nat) (lw : List (List Char × Option (List Char))),
      labelWords ld ws ps = some lw →
      ∀ (j : Nat) (wt : List Char × Option (List Char)), lw[j]? = some wt →
        ∃ pj wj, ps[j]? = some pj ∧ ws[j]? = some wj ∧
          wt = (wj, if ld pj ≠ NONE_LABEL.data then some (ld pj) else none) := by
  intro ws
  induction ws with
  | nil =>
    intro ps lw h j wt hj
    obtain rfl : ([] : List (List Char × Option (List Char))) = lw := by
      simpa [labelWords] using h
    simp at hj
  | cons w ws ih =>
    intro ps lw h j wt hj
    cases ps with
    | nil => simp [labelWords] at h
    | cons p ps =>
      rw [labelWords, Option.map_eq_some'] at h
      obtain ⟨rest, hrest, rfl⟩ := h
      cases j with
      | zero =>
        obtain rfl : (w, if ld p ≠ NONE_LABEL.data then some (ld p) else none) = wt := by
          simpa using hj
        exact ⟨p, w, by simp, by simp, rfl⟩
      | succ j =>
        obtain ⟨pj, wj, hpj, hwj, hwt⟩ := ih ps rest hrest j wt (by simpa using hj)
        exact ⟨pj, wj, by simpa using hpj, by simpa using hwj, hwt⟩

theorem zip_filterMap_length : ∀ (row : List Nat) (mask : List ℚ),
    row.length = mask.length →
    ((row.zip mask).filterMap
        (fun pm => if (0.5 : ℚ) < pm.2 then some pm.1 else none)).length
      = mask.countP (fun m => decide ((0.5 : ℚ) < m)) := by
  intro row
  induction row with
  | nil =>
    intro mask h
    cases mask with
    | nil => rfl
    | cons m mask => simp at h
  | cons p row ih =>
    intro mask h
    cases mask with
    | nil => simp at h
    | cons m mask =>
      simp only [List.zip_cons_cons, List.filterMap_cons, List.countP_cons]
      by_cases hm : (0.5 : ℚ) < m
      · rw [if_pos hm]
        simp [hm, ih mask (by simpa using h)]
      · rw [if_neg hm]
        simp [hm, ih mask (by simpa using h)]

theorem maskSelect_length (row : List Nat) (mask : List ℚ) (pred : List Nat)
    (h : maskSelect row mask = some pred) :
    pred.length = mask.countP (fun m => decide ((0.5 : ℚ) < m)) := by
  unfold maskSelect at h
  by_cases hlen : row.length = mask.length
  · rw [if_pos hlen, Option.some.injEq] at h
    rw [← h]
    exact zip_filterMap_length row mask hlen
  · rw [if_neg hlen] at h
    exact absurd h (by simp)

theorem maskSelect_mem (row : List Nat) (mask : List ℚ) (pred : List Nat)
    (h : maskSelect row mask = some pred) :
    ∀ x ∈ pred, x ∈ row := by
  unfold maskSelect at h
  by_cases hlen : row.length = mask.length
  · rw [if_pos hlen, Option.some.injEq] at h
    intro x hx
    rw [← h, List.mem_filterMap] at hx
    obtain ⟨pm, hpm, hsel⟩ := hx
    by_cases hm : (0.5 : ℚ) < pm.2
    · rw [if_pos hm, Option.some.injEq] at hsel
      subst hsel
      exact (List.of_mem_zip hpm).1
    · rw [if_neg hm] at hsel
      exact absurd hsel (by simp)
  · rw [if_neg hlen] at h
    exact absurd h (by simp)

theorem npArgmaxAxis2_getElem :
    ∀ (a : List (List (List Int))) (b : List (List Nat)),
      npArgmaxAxis2 a = some b →
      ∀ (i : Nat) (prow : List Nat), b[i]? = some prow →
        ∃ lrow, a[i]? = some lrow ∧ npArgmaxRow lrow = some prow := by
  intro a
  induction a with
  | nil =>
    intro b h i prow hi
    obtain rfl : ([] : List (List Nat)) = b := by simpa [npArgmaxAxis2] using h
    simp at hi
  | cons row rows ih =>
    intro b h i prow hi
    rw [npArgmaxAxis2] at h
    cases h1 : npArgmaxRow row with
    | none => rw [h1] at h; exact absurd h (by simp)
    | some ps =>
      cases h2 : npArgmaxAxis2 rows with
      | none => rw [h1, h2] at h; exact absurd h (by simp)
      | some rest =>
        rw [h1, h2, Option.some.injEq] at h
        subst h
        cases i with
        | zero =>
          obtain rfl : ps = prow := by simpa using hi
          exact ⟨row, by simp, h1⟩
        | succ i =>
          obtain ⟨lrow, hl, hr⟩ := ih rest h2 i prow (by simpa using hi)
          exact ⟨lrow, by simpa using hl, hr⟩

theorem queryOutput_all_none (ld : Nat → List Char) :
    ∀ (ws : List (List Char)) (ps : List Nat),
      ws.length ≤ ps.length →
      (∀ (j : Nat) (pj : Nat), ps[j]? = some pj → j < ws.length → ld pj = NONE_LABEL.data) →
      queryOutput ld ws ps = some ((ws.map (fun w => w ++ [' '])).flatten) := by
  intro ws
  induction ws with
  | nil => intro ps _ _; rfl
  | cons w ws ih =>
    intro ps hlen hO
    cases ps with
    | nil => simp at hlen
    | cons p ps =>
      have hp : ld p = NONE_LABEL.data := hO 0 p (by simp) (by simp)
      rw [queryOutput,
        ih ps (by simpa using hlen)
          (fun j pj hj hjlt => hO (j + 1) pj (by simpa using hj) (by simpa using hjlt))]
      simp [hp]

theorem flatten_words_eq (w : List Char) (ws : List (List Char)) :
    (((w :: ws).map (fun v => v ++ [' '])).flatten) = pyJoinSpace (w :: ws) ++ [' '] := by
  induction ws generalizing w with
  | nil => simp [pyJoinSpace]
  | cons v ws ih =>
    calc (((w :: v :: ws).map (fun u => u ++ [' '])).flatten)
        = (w ++ [' ']) ++ (((v :: ws).map (fun u => u ++ [' '])).flatten) := by
          simp
      _ = (w ++ [' ']) ++ (pyJoinSpace (v :: ws) ++ [' ']) := by rw [ih v]
      _ = pyJoinSpace (w :: v :: ws) ++ [' '] := by
          simp [pyJoinSpace]

theorem pyJoinSpace_cons_append (w : List Char) (ws : List (List Char)) :
    ∃ t, pyJoinSpace (w :: ws) = w ++ t := by
  cases ws with
  | nil => exact ⟨[], by simp [pyJoinSpace]⟩
  | cons v ws => exact ⟨' ' :: pyJoinSpace (v :: ws), rfl⟩

theorem pyJoinSpace_reverse_head (ws : List (List Char)) (hne : ws ≠ [])
    (h : ∀ w ∈ ws, w ≠ [] ∧ ∀ c ∈ w, pySpace c = false) :
    ∃ c t, (pyJoinSpace ws).reverse = c :: t ∧ pySpace c = false := by
  induction ws with
  | nil => exact absurd rfl hne
  | cons w ws ih =>
    cases ws with
    | nil =>
      obtain ⟨hwne, hnospace⟩ := h w (by simp)
      obtain ⟨c, t, hct⟩ : ∃ c t, w.reverse = c :: t := by
        cases hcase : w.reverse with
        | nil => exact absurd (List.reverse_eq_nil_iff.mp hcase) hwne
        | cons c t => exact ⟨c, t, rfl⟩
      refine ⟨c, t, by simpa [pyJoinSpace] using hct, ?_⟩
      exact hnospace c (List.mem_reverse.mp (by simp [hct]))
    | cons v ws =>
      obtain ⟨c, t, hct, hc⟩ := ih (by simp) (fun u hu => h u (by simp [hu]))
      refine ⟨c, t ++ (' ' :: w.reverse), ?_, hc⟩
      show (pyJoinSpace (w :: v :: ws)).reverse = c :: (t ++ (' ' :: w.reverse))
      rw [show pyJoinSpace (w :: v :: ws) = w ++ ' ' :: pyJoinSpace (v :: ws) from rfl]
      rw [List.reverse_append, List.reverse_cons, List.append_assoc, hct]
      simp

theorem pyStrip_joined (ws : List (List Char)) (hne : ws ≠ [])
    (h : ∀ w ∈ ws, w ≠ [] ∧ ∀ c ∈ w, pySpace c = false) :
    pyStrip (pyJoinSpace ws ++ [' ']) = pyJoinSpace ws := by
  obtain ⟨w, ws, rfl⟩ : ∃ w rest, ws = w :: rest := by
    cases ws with
    | nil => exact absurd rfl hne
    | cons w rest => exact ⟨w, rest, rfl⟩
  obtain ⟨hwne, hnospace⟩ := h w (by simp)
  obtain ⟨d, w2, rfl⟩ : ∃ d w2, w = d :: w2 := by
    cases w with
    | nil => exact absurd rfl hwne
    | cons d w2 => exact ⟨d, w2, rfl⟩
  have hd : pySpace d = false := hnospace d (by simp)
  obtain ⟨t, ht⟩ := pyJoinSpace_cons_append (d :: w2) ws
  obtain ⟨c, rt, hct, hc⟩ := pyJoinSpace_reverse_head ((d :: w2) :: ws) (by simp) h
  unfold pyStrip
  rw [ht]
  have hfront : (((d :: w2) ++ t) ++ [' ']).dropWhile pySpace = ((d :: w2) ++ t) ++ [' '] := by
    simp only [List.cons_append, List.dropWhile_cons, hd, Bool.false_eq_true, if_false]
  rw [hfront, ← ht, List.reverse_append, List.reverse_singleton, List.singleton_append,
    List.dropWhile_cons]
  have hsp : pySpace ' ' = true := by decide
  rw [if_pos (by simp [hsp]), hct, List.dropWhile_cons, if_neg (by simp [hc]), ← hct,
    List.reverse_reverse]

theorem queryOutput_eq_none_iff (ld : Nat → List Char) (ws : List (List Char))
    (ps : List Nat) :
    queryOutput ld ws ps = none ↔ ps.length < ws.length := by
  rw [← Option.not_isSome_iff_eq_none, queryOutput_isSome_iff ld ws ps]
  exact Nat.not_le

/-- C1: the labeling loop preserves word order — its output decomposes
into the query's words with optional bracketed tag annotations attached,
and erasing the annotations and splitting on whitespace recovers exactly
`query.strip().split()`. -/
theorem C1_word_order (ld : Nat → List Char) (query : List Char) (pred : List Nat)
    (lw : List (List Char × Option (List Char)))
    (h : labelWords ld (pyWords query) pred = some lw) :
    queryOutput ld (pyWords query) pred = some (render lw) ∧
    pySplit (eraseTags lw) = pyWords query := by
  refine ⟨?_, ?_⟩
  · rw [queryOutput_eq_render, h, Option.map_some']
  · have hfst := labelWords_fst ld (pyWords query) pred lw h
    have heq : eraseTags lw = ((pyWords query).map (fun w => w ++ [' '])).flatten := by
      rw [← hfst, List.map_map]
      rfl
    rw [heq, pySplit_flatten_words (pyWords query) (pyWords_mem query)]

theorem C1_witness :
    labelWords (fun p => if p == 1 then ['B'] else ['O']) (pyWords ['x', ' ', 'y']) [0, 1]
        = some [(['x'], none), (['y'], some ['B'])] ∧
    (queryOutput (fun p => if p == 1 then ['B'] else ['O']) (pyWords ['x', ' ', 'y']) [0, 1]
        = some (render [(['x'], none), (['y'], some ['B'])]) ∧
      pySplit (eraseTags [(['x'], none), (['y'], some ['B'])]) = pyWords ['x', ' ', 'y']) :=
  ⟨by decide,
    C1_word_order (fun p => if p == 1 then ['B'] else ['O']) ['x', ' ', 'y'] [0, 1]
      [(['x'], none), (['y'], some ['B'])] (by decide)⟩

/-- C2: in the labeled output a word is immediately followed by a
bracketed tag exactly when the label selected for it differs from the
outside label `O`; outside words carry no annotation. -/
theorem C2_tag_iff_non_outside (ld : Nat → List Char) (query : List Char) (pred : List Nat)
    (lw : List (List Char × Option (List Char))) (j : Nat)
    (wt : List Char × Option (List Char))
    (h : labelWords ld (pyWords query) pred = some lw)
    (hj : lw[j]? = some wt) :
    ∃ pj, pred[j]? = some pj ∧
      (wt.2.isSome = true ↔ ld pj ≠ NONE_LABEL.data) ∧
      renderWord wt = wt.1 ++ (if ld pj ≠ NONE_LABEL.data then add_brackets (ld pj) else [])
        ++ [' '] := by
  obtain ⟨pj, wj, hpj, hwj, rfl⟩ := labelWords_getElem ld (pyWords query) pred lw h j wt hj
  refine ⟨pj, hpj, ?_, ?_⟩
  · by_cases hl : ld pj ≠ NONE_LABEL.data
    · simp [hl]
    · simp [hl]
  · by_cases hl : ld pj ≠ NONE_LABEL.data
    · simp [hl, renderWord]
    · simp [hl, renderWord]

theorem C2_witness :
    labelWords (fun p => if p == 1 then ['B'] else ['O']) (pyWords ['a', ' ', 'b']) [1, 0]
        = some [(['a'], some ['B']), (['b'], none)] ∧
    ([(['a'], some ['B']), (['b'], none)]
        : List (List Char × Option (List Char)))[0]? = some (['a'], some ['B']) ∧
    (∃ pj, ([1, 0] : List Nat)[0]? = some pj ∧
      (((['a'], some ['B']) : List Char × Option (List Char)).2.isSome = true ↔
        (fun p => if p == 1 then ['B'] else ['O']) pj ≠ NONE_LABEL.data) ∧
      renderWord (['a'], some ['B'])
        = (['a'], some ['B']).1 ++
            (if (fun p => if p == 1 then ['B'] else ['O']) pj ≠ NONE_LABEL.data
              then add_brackets ((fun p => if p == 1 then ['B'] else ['O']) pj) else [])
            ++ [' ']) :=
  ⟨by decide, by decide,
    C2_tag_iff_non_outside (fun p => if p == 1 then ['B'] else ['O']) ['a', ' ', 'b'] [1, 0]
      [(['a'], some ['B']), (['b'], none)] 0 (['a'], some ['B']) (by decide) (by decide)⟩

/-- C3: the label attached to the j-th word of the i-th query is
`labels_dict[pred[j]]`, where `pred` is row i of
`np.argmax(concatenate(logits), axis=2)` restricted to the positions
whose sub-token-mask value exceeds 0.5. -/
theorem C3_label_pipeline (ld : Nat → List Char)
    (logits_t : List (List (List (List Int)))) (mask_t : List (List (List ℚ)))
    (preds : List (List Nat)) (i : Nat) (prow : List Nat) (mrow : List ℚ)
    (pred : List Nat) (query : List Char)
    (lw : List (List Char × Option (List Char))) (j : Nat)
    (wt : List Char × Option (List Char))
    (h1 : npArgmaxAxis2 (concatenate logits_t) = some preds)
    (h2 : preds[i]? = some prow)
    (h3 : (concatenate mask_t)[i]? = some mrow)
    (h4 : maskSelect prow mrow = some pred)
    (h5 : labelWords ld (pyWords query) pred = some lw)
    (h6 : lw[j]? = some wt) :
    ∃ lrow pj, (concatenate logits_t)[i]? = some lrow ∧
      npArgmaxRow lrow = some prow ∧
      pred[j]? = some pj ∧ pj ∈ prow ∧
      selectedLabel wt = ld pj := by
  obtain ⟨lrow, hl, hr⟩ := npArgmaxAxis2_getElem (concatenate logits_t) preds h1 i prow h2
  obtain ⟨pj, wj, hpj, hwj, rfl⟩ := labelWords_getElem ld (pyWords query) pred lw h5 j wt h6
  have hmem : pj ∈ pred := List.getElem?_mem hpj
  refine ⟨lrow, pj, hl, hr, hpj, maskSelect_mem prow mrow pred h4 pj hmem, ?_⟩
  by_cases hlb : ld pj ≠ NONE_LABEL.data
  · simp [selectedLabel, hlb]
  · rw [not_not] at hlb
    simp [selectedLabel, hlb]

theorem C3_witness :
    npArgmaxAxis2 (concatenate ([[[[0, 1], [1, 0]]]] : List (List (List (List Int)))))
        = some [[1, 0]] ∧
    ([[1, 0]] : List (List Nat))[0]? = some [1, 0] ∧
    (concatenate [[[(1 : ℚ), 0]]])[0]? = some [(1 : ℚ), 0] ∧
    maskSelect [1, 0] [(1 : ℚ), 0] = some [1] ∧
    labelWords (fun p => if p == 1 then ['B'] else ['O']) (pyWords ['a']) [1]
        = some [(['a'], some ['B'])] ∧
    ([(['a'], some ['B'])] : List (List Char × Option (List Char)))[0]?
        = some (['a'], some ['B']) ∧
    (∃ lrow pj,
      (concatenate ([[[[0, 1], [1, 0]]]] : List (List (List (List Int)))))[0]? = some lrow ∧
      npArgmaxRow lrow = some [1, 0] ∧
      ([1] : List Nat)[0]? = some pj ∧ pj ∈ [1, 0] ∧
      selectedLabel (['a'], some ['B']) = (fun p => if p == 1 then ['B'] else ['O']) pj) :=
  ⟨by decide, by decide, by norm_num [concatenate],
    by
      have h1 : (0.5 : ℚ) < 1 := by norm_num
      have h0 : ¬((0.5 : ℚ) < 0) := by norm_num
      simp [maskSelect, h1, h0],
    by decide, by decide,
    C3_label_pipeline (fun p => if p == 1 then ['B'] else ['O'])
      [[[[0, 1], [1, 0]]]] [[[(1 : ℚ), 0]]] [[1, 0]] 0 [1, 0] [(1 : ℚ), 0] [1] ['a']
      [(['a'], some ['B'])] 0 (['a'], some ['B'])
      (by decide) (by decide) (by norm_num [concatenate])
      (by
        have h1 : (0.5 : ℚ) < 1 := by norm_num
        have h0 : ¬((0.5 : ℚ) < 0) := by norm_num
        simp [maskSelect, h1, h0])
      (by decide) (by decide)⟩

/-- C5: the repository installs no exception handler — the per-query
pipeline's result is `none` exactly when one of the underlying errors
occurs (mask length mismatch, or too few selected positions for the
words), i.e. every error propagates unchanged to the caller. -/
theorem C5_errors_propagate : ∀ (ld : Nat → List Char) (query : List Char)
    (prow : List Nat) (mrow : List ℚ),
    queryResult ld query prow mrow = none ↔
      prow.length ≠ mrow.length ∨
        mrow.countP (fun m => decide ((0.5 : ℚ) < m)) < (pyWords query).length := by
  intro ld query prow mrow
  by_cases hlen : prow.length = mrow.length
  · have hsel : maskSelect prow mrow
        = some ((prow.zip mrow).filterMap
            (fun pm => if (0.5 : ℚ) < pm.2 then some pm.1 else none)) := by
      unfold maskSelect
      rw [if_pos hlen]
    unfold queryResult labeledResult
    rw [hsel, Option.some_bind, Option.map_eq_none', queryOutput_eq_none_iff,
      maskSelect_length prow mrow _ hsel]
    simp [hlen]
  · have hsel : maskSelect prow mrow = none := by
      unfold maskSelect
      rw [if_neg hlen]
    unfold queryResult
    rw [hsel, Option.none_bind]
    simp [hlen]

/-- C8: the labeling loop is total exactly when the number of
mask-selected positions is at least the query's word count; with fewer
selected positions the `pred[j]` access fails and the loop returns the
modelled `IndexError`. -/
theorem C8_truncation_precondition (ld : Nat → List Char) (query : List Char)
    (prow : List Nat) (mrow : List ℚ) (pred : List Nat)
    (h : maskSelect prow mrow = some pred) :
    ((queryOutput ld (pyWords query) pred).isSome = true ↔
      (pyWords query).length ≤ mrow.countP (fun m => decide ((0.5 : ℚ) < m))) ∧
    (mrow.countP (fun m => decide ((0.5 : ℚ) < m)) < (pyWords query).length →
      queryOutput ld (pyWords query) pred = none) := by
  have hcount := maskSelect_length prow mrow pred h
  constructor
  · rw [queryOutput_isSome_iff, hcount]
  · intro hlt
    rw [queryOutput_eq_none_iff, hcount]
    exact hlt

theorem C8_witness :
    maskSelect [0] [(0 : ℚ)] = some [] ∧
    (((queryOutput (fun _ => ['O']) (pyWords ['a']) []).isSome = true ↔
      (pyWords ['a']).length ≤ [(0 : ℚ)].countP (fun m => decide ((0.5 : ℚ) < m))) ∧
    ([(0 : ℚ)].countP (fun m => decide ((0.5 : ℚ) < m)) < (pyWords ['a']).length →
      queryOutput (fun _ => ['O']) (pyWords ['a']) [] = none)) :=
  ⟨by
      have h0 : ¬((0.5 : ℚ) < 0) := by norm_num
      simp [maskSelect, h0],
    C8_truncation_precondition (fun _ => ['O']) ['a'] [0] [(0 : ℚ)] []
      (by
        have h0 : ¬((0.5 : ℚ) < 0) := by norm_num
        simp [maskSelect, h0])⟩

/-- C9: when every label selected for the query is the outside label
`O`, the printed labeled result `output.strip()` is the query's words
joined by single spaces. -/
theorem C9_outside_identity (ld : Nat → List Char) (query : List Char) (pred : List Nat)
    (hlen : (pyWords query).length ≤ pred.length)
    (hO : ∀ (j : Nat) (pj : Nat), pred[j]? = some pj → j < (pyWords query).length →
      ld pj = NONE_LABEL.data) :
    labeledResult ld query pred = some (pyJoinSpace (pyWords query)) := by
  unfold labeledResult
  rw [queryOutput_all_none ld (pyWords query) pred hlen hO]
  cases hws : pyWords query with
  | nil => rfl
  | cons w ws =>
    rw [Option.map_some', flatten_words_eq w ws,
      pyStrip_joined (w :: ws) (by simp) (by rw [← hws]; exact pyWords_mem query)]

theorem C9_witness :
    (pyWords ['a', ' ', ' ', 'b']).length ≤ ([0, 0] : List Nat).length ∧
    labeledResult (fun _ => ['O']) ['a', ' ', ' ', 'b'] [0, 0]
      = some (pyJoinSpace (pyWords ['a', ' ', ' ', 'b'])) :=
  ⟨by decide,
    C9_outside_identity (fun _ => ['O']) ['a', ' ', ' ', 'b'] [0, 0] (by decide)
      (fun j pj hj hlt => rfl)⟩

/-- C6: the notebook sets `NONE_LABEL = "O"` and builds the training
data layer without overriding the default `pad_label`, so the pad label
is the outside symbol and every padded position receives its numeric
id. -/
theorem C6_pad_label_outside :
    NONE_LABEL = "O" ∧ dl_train.pad_label = NONE_LABEL ∧
    ∀ (labelId : String → Nat) (ids : List Nat) (j : Nat),
      ids.length ≤ j → j < dl_train.max_seq_length →
      (padLabelIds labelId dl_train ids)[j]? = some (labelId NONE_LABEL) := by
  refine ⟨rfl, rfl, ?_⟩
  intro labelId ids j hij hjmax
  unfold padLabelIds
  have htake : (ids.take dl_train.max_seq_length).length ≤ j := by
    rw [List.length_take]
    exact le_trans (min_le_right _ _) hij
  rw [List.getElem?_append_right htake, List.getElem?_replicate,
    if_pos (Nat.sub_lt_sub_right htake hjmax)]
  rfl

theorem C6_witness :
    ([] : List Nat).length ≤ 0 ∧ 0 < dl_train.max_seq_length ∧
    (padLabelIds (fun _ => 5) dl_train [])[0]? = some 5 :=
  ⟨by decide, by decide, C6_pad_label_outside.2.2 (fun _ => 5) [] 0 (by decide) (by decide)⟩

/-- C7: the training data layer reads exactly the two plain-text files
`DATA_DIR/text_train.txt` and `DATA_DIR/labels_train.txt`, while the
inference data layer is built from an in-memory query list and has no
file parameter at all. -/
theorem C7_file_inputs_vs_queries :
    dl_train.text_file = osPathJoin DATA_DIR "text_train.txt" ∧
    dl_train.label_file = osPathJoin DATA_DIR "labels_train.txt" ∧
    dl_train.text_file = "/dli/task/data/NCBI_ner-3/text_train.txt" ∧
    dl_train.label_file = "/dli/task/data/NCBI_ner-3/labels_train.txt" ∧
    ∀ (qs : List String), (dl_test qs).queries = qs ∧
      dl_test qs = BertTokenClassificationInferDataLayer.mk qs MAX_SEQ_LEN 1 :=
  ⟨rfl, rfl, by decide, by decide, fun qs => ⟨rfl, rfl⟩⟩

end NER
